import Mathlib

/-!
Shallow embedding of `src/procfs-core/src/tty.rs`: the decoders for the
tty-driver table and the line-discipline table of a procfs-style virtual
filesystem.  Rust strings are Lean `String`s (tokens are handled as
`List Char`, the character data of a string slice); `isize` is `Int` with the
64-bit bound checked where the source parses text into an integer; `usize` is
`Nat` with the 64-bit bound; fallible code returns `Except ProcError`.
The `HashMap` accumulator is modelled as an association list with the map's
insert-or-overwrite semantics; the observations used by the code and the
claims are size and keyed lookup.
-/

namespace Procfs

/-- Modelled from the spec: the `ProcError` type and the `expect!` and
`from_str!` macros live outside `tty.rs` (they are part of the crate but not
under `src/`).  The spec gives three error kinds: `MalformedRecord` for a
required field missing from a line, `InvalidNumber` for a field expected to
be numeric that does not parse as an integer of the expected signedness or
overflows the target integer width, and `SourceReadError` wrapping the
underlying read fault's description as opaque text. -/
inductive ProcError where
  | MalformedRecord : ProcError
  | InvalidNumber : ProcError
  | SourceReadError : String → ProcError
deriving DecidableEq, Repr

/-- Modelled from the spec: the `expect!` macro (outside `tty.rs`) unwraps an
optional value and fails with `MalformedRecord` when the value is absent. -/
def expect {α : Type} : Option α → Except ProcError α
  | some v => Except.ok v
  | none => Except.error ProcError.MalformedRecord

/-- Accumulate a decimal value over a character list, Rust-style: every
character must be an ASCII digit; the empty list is rejected. -/
def digitsToNat : List Char → Option Nat
  | [] => none
  | cs =>
    cs.foldl
      (fun acc c =>
        acc.bind (fun n => if c.isDigit then some (n * 10 + (c.toNat - 48)) else none))
      (some 0)

/-- Modelled from the spec: `from_str!(isize, _)` (the macro is outside
`tty.rs`) parses a signed integer — an optional leading sign followed by
ASCII digits — failing with `InvalidNumber` when the text is not such an
integer or the value overflows the 64-bit signed range. -/
def from_str_isize (cs : List Char) : Except ProcError Int :=
  match cs with
  | '+' :: rest =>
    match digitsToNat rest with
    | some n => if n ≤ 2 ^ 63 - 1 then Except.ok (n : Int) else Except.error ProcError.InvalidNumber
    | none => Except.error ProcError.InvalidNumber
  | '-' :: rest =>
    match digitsToNat rest with
    | some n => if n ≤ 2 ^ 63 then Except.ok (-(n : Int)) else Except.error ProcError.InvalidNumber
    | none => Except.error ProcError.InvalidNumber
  | _ =>
    match digitsToNat cs with
    | some n => if n ≤ 2 ^ 63 - 1 then Except.ok (n : Int) else Except.error ProcError.InvalidNumber
    | none => Except.error ProcError.InvalidNumber

/-- Modelled from the spec: `from_str!(usize, _)` parses an unsigned integer —
an optional leading plus sign followed by ASCII digits — failing with
`InvalidNumber` when the text is not a valid non-negative integer or
overflows the 64-bit unsigned range. -/
def from_str_usize (cs : List Char) : Except ProcError Nat :=
  match cs with
  | '+' :: rest =>
    match digitsToNat rest with
    | some n => if n ≤ 2 ^ 64 - 1 then Except.ok n else Except.error ProcError.InvalidNumber
    | none => Except.error ProcError.InvalidNumber
  | _ =>
    match digitsToNat cs with
    | some n => if n ≤ 2 ^ 64 - 1 then Except.ok n else Except.error ProcError.InvalidNumber
    | none => Except.error ProcError.InvalidNumber

/-- Worker for the tokenizer: `cur` is the token being accumulated (empty when
between tokens); a whitespace character closes the current token, any other
character extends it, and end of input flushes a pending token. -/
def splitWsAux (cur : List Char) : List Char → List (List Char)
  | [] => if cur = [] then [] else [cur]
  | c :: cs =>
    if c.isWhitespace then
      if cur = [] then splitWsAux [] cs else cur :: splitWsAux [] cs
    else splitWsAux (cur ++ [c]) cs

/-- Embedding of `str::split_whitespace` as used by `parse_line`: split the
character data into maximal runs of non-whitespace characters, discarding
whitespace (Rust splits on Unicode whitespace; the ASCII whitespace
characters recognised by `Char.isWhitespace` cover the procfs wire format). -/
def splitWhitespace (cs : List Char) : List (List Char) :=
  splitWsAux [] cs

/-- Embedding of `str::split_once("-")`: split at the first occurrence of the
separator character, returning the text before and after it, or `none` when
the separator does not occur. -/
def splitOnceChar (sep : Char) : List Char → Option (List Char × List Char)
  | [] => none
  | c :: cs =>
    if c = sep then some ([], cs)
    else
      match splitOnceChar sep cs with
      | some (l, r) => some (c :: l, r)
      | none => none

/-- Embedding of `TttyDriver` (tty.rs lines 5-11): one registered tty driver.
`RangeInclusive<isize>` is modelled as the pair (start, end) of its bounds. -/
structure TttyDriver where
  name : String
  node_name : String
  major_number : Int
  minor_numbers : Int × Int
  driver_type : String
deriving DecidableEq, Repr

/-- The minor-numbers block of `TttyDriver::parse_line` (tty.rs lines 20-29):
if the field contains a `-`, split at its first occurrence and parse each
side as a signed integer; otherwise parse the whole field once and use it as
both bounds. -/
def parseBounds (bounds : List Char) : Except ProcError (Int × Int) :=
  match splitOnceChar '-' bounds with
  | some (lower, upper) => do
    let lower ← from_str_isize lower
    let upper ← from_str_isize upper
    Except.ok (lower, upper)
  | none => do
    let single ← from_str_isize bounds
    Except.ok (single, single)

/-- The token-consuming body of `TttyDriver::parse_line` (tty.rs lines 14-38):
fields are taken strictly left to right from the token stream; a missing
field fails (via `expect`) before any later field is examined. -/
def TttyDriver.parseTokens (split : List (List Char)) : Except ProcError TttyDriver := do
  let name ← expect split.head?
  let split := split.tail
  let node_name ← expect split.head?
  let split := split.tail
  let major_number ← from_str_isize (← expect split.head?)
  let split := split.tail
  let bounds ← expect split.head?
  let minor_numbers ← parseBounds bounds
  let split := split.tail
  let driver_type ← expect split.head?
  Except.ok
    { name := String.mk name
      node_name := String.mk node_name
      major_number := major_number
      minor_numbers := minor_numbers
      driver_type := String.mk driver_type }

/-- Embedding of `TttyDriver::parse_line` (tty.rs lines 14-38). -/
def TttyDriver.parse_line (line : String) : Except ProcError TttyDriver :=
  TttyDriver.parseTokens (splitWhitespace line.data)

/-- Embedding of `TtyDrivers` (tty.rs lines 40-42): the name-keyed table of
drivers.  The `HashMap<String, TttyDriver>` is modelled as an association
list with insert-or-overwrite semantics. -/
structure TtyDrivers where
  drivers : List (String × TttyDriver)
deriving DecidableEq, Repr

/-- Model of `HashMap::insert` on the association list: overwrite the entry with
the given key when present, otherwise add a new entry. -/
def insertAssoc (m : List (String × TttyDriver)) (k : String) (v : TttyDriver) :
    List (String × TttyDriver) :=
  match m with
  | [] => [(k, v)]
  | (k', v') :: rest => if k' = k then (k, v) :: rest else (k', v') :: insertAssoc rest k v

/-- Model of `HashMap::get` on the association list. -/
def getAssoc (m : List (String × TttyDriver)) (k : String) : Option TttyDriver :=
  match m with
  | [] => none
  | (k', v') :: rest => if k' = k then some v' else getAssoc rest k

/-- The loop of `TtyDrivers::from_buf_read` (tty.rs lines 46-55): each item of
the line source either yields a line or reports a read fault; a fault becomes
a `SourceReadError` carrying the fault's description, a parse failure is
propagated as is, and a parsed driver is inserted under its name. -/
def TtyDrivers.fromBufReadGo (drivers : List (String × TttyDriver)) :
    List (Except String String) → Except ProcError (List (String × TttyDriver))
  | [] => Except.ok drivers
  | x :: rest =>
    match x with
    | Except.error e => Except.error (ProcError.SourceReadError e)
    | Except.ok line =>
      match TttyDriver.parse_line line with
      | Except.error err => Except.error err
      | Except.ok driver =>
        TtyDrivers.fromBufReadGo (insertAssoc drivers driver.name driver) rest

/-- Embedding of `TtyDrivers::from_buf_read` (tty.rs lines 45-55).  The
caller-supplied `BufRead` line source is modelled as the list of its yielded
items, each either a line or a read fault's description. -/
def TtyDrivers.from_buf_read (r : List (Except String String)) : Except ProcError TtyDrivers :=
  (TtyDrivers.fromBufReadGo [] r).map TtyDrivers.mk

/-- Embedding of `LineDiscipline` (tty.rs lines 57-60). -/
structure LineDiscipline where
  name : String
  no : Nat
deriving DecidableEq, Repr

/-- The token-consuming body of `LineDiscipline::parse_line` (tty.rs
lines 63-71). -/
def LineDiscipline.parseTokens (line : List (List Char)) : Except ProcError LineDiscipline := do
  let name ← expect line.head?
  let line := line.tail
  let no_string ← expect line.head?
  let no ← from_str_usize no_string
  Except.ok { name := String.mk name, no := no }

/-- Embedding of `LineDiscipline::parse_line` (tty.rs lines 63-71). -/
def LineDiscipline.parse_line (line : String) : Except ProcError LineDiscipline :=
  LineDiscipline.parseTokens (splitWhitespace line.data)

/-- Embedding of `LineDisciplines` (tty.rs lines 73-75). -/
structure LineDisciplines where
  disciplines : List LineDiscipline
deriving DecidableEq, Repr

/-- The loop of `LineDisciplines::from_buf_read` (tty.rs lines 78-86): same
shape as the driver loop, but records are pushed onto the end of a sequence. -/
def LineDisciplines.fromBufReadGo (disciplines : List LineDiscipline) :
    List (Except String String) → Except ProcError (List LineDiscipline)
  | [] => Except.ok disciplines
  | x :: rest =>
    match x with
    | Except.error e => Except.error (ProcError.SourceReadError e)
    | Except.ok line =>
      match LineDiscipline.parse_line line with
      | Except.error err => Except.error err
      | Except.ok discipline =>
        LineDisciplines.fromBufReadGo (disciplines ++ [discipline]) rest

/-- Embedding of `LineDisciplines::from_buf_read` (tty.rs lines 77-86). -/
def LineDisciplines.from_buf_read (r : List (Except String String)) :
    Except ProcError LineDisciplines :=
  (LineDisciplines.fromBufReadGo [] r).map LineDisciplines.mk

/-- Specification-side helper: run a line parser over a list of lines,
collecting all results and stopping at the first failure. -/
def parseAll {α : Type} (f : String → Except ProcError α) : List String → Except ProcError (List α)
  | [] => Except.ok []
  | l :: ls => do
    let d ← f l
    let ds ← parseAll f ls
    Except.ok (d :: ds)

/-- Specification-side helper expressing last-write-wins: the last record of
the list whose name matches the key, if any. -/
def lastWins : List TttyDriver → String → Option TttyDriver
  | [], _ => none
  | d :: ds, k =>
    match lastWins ds k with
    | some x => some x
    | none => if d.name = k then some d else none

@[simp] theorem ok_bind {α β : Type} (a : α) (f : α → Except ProcError β) :
    (Except.ok a >>= f) = f a := rfl

@[simp] theorem error_bind {α β : Type} (e : ProcError) (f : α → Except ProcError β) :
    ((Except.error e : Except ProcError α) >>= f) = Except.error e := rfl

@[simp] theorem expect_some {α : Type} (a : α) : expect (some a) = Except.ok a := rfl

@[simp] theorem expect_none {α : Type} : expect (none : Option α) =
    Except.error ProcError.MalformedRecord := rfl

theorem splitOnceChar_eq_some {sep : Char} :
    ∀ {cs l r : List Char}, splitOnceChar sep cs = some (l, r) →
      cs = l ++ sep :: r ∧ sep ∉ l := by
  intro cs
  induction cs with
  | nil => intro l r h; simp [splitOnceChar] at h
  | cons c cs ih =>
    intro l r h
    by_cases hc : c = sep
    · simp [splitOnceChar, hc] at h
      obtain ⟨hl, hr⟩ := h
      subst hl; subst hr; subst hc
      exact ⟨rfl, List.not_mem_nil _⟩
    · simp [splitOnceChar, hc] at h
      match hsplit : splitOnceChar sep cs with
      | none => rw [hsplit] at h; simp at h
      | some (l', r') =>
        rw [hsplit] at h
        simp at h
        obtain ⟨hl, hr⟩ := h
        obtain ⟨hcs, hnot⟩ := ih hsplit
        subst hl; subst hr
        constructor
        · simp [hcs]
        · intro hmem
          rcases List.mem_cons.mp hmem with h1 | h1
          · exact hc h1.symm
          · exact hnot h1

theorem parseTokens_tty_ok :
    ∀ {ts : List (List Char)} {r : TttyDriver},
      TttyDriver.parseTokens ts = Except.ok r →
      ∃ t0 t1 t2 t3 t4 rest, ts = t0 :: t1 :: t2 :: t3 :: t4 :: rest ∧
        r.name = String.mk t0 ∧ r.node_name = String.mk t1 ∧
        from_str_isize t2 = Except.ok r.major_number ∧
        parseBounds t3 = Except.ok r.minor_numbers ∧
        r.driver_type = String.mk t4 := by
  intro ts r h
  match ts with
  | [] => simp [TttyDriver.parseTokens] at h
  | [t0] => simp [TttyDriver.parseTokens] at h
  | [t0, t1] => simp [TttyDriver.parseTokens] at h
  | [t0, t1, t2] =>
    simp [TttyDriver.parseTokens] at h
    match h2 : from_str_isize t2 with
    | Except.ok n => rw [h2] at h; simp at h
    | Except.error e => rw [h2] at h; simp at h
  | [t0, t1, t2, t3] =>
    simp [TttyDriver.parseTokens] at h
    match h2 : from_str_isize t2 with
    | Except.ok n =>
      rw [h2] at h; simp at h
      match h3 : parseBounds t3 with
      | Except.ok b => rw [h3] at h; simp at h
      | Except.error e => rw [h3] at h; simp at h
    | Except.error e => rw [h2] at h; simp at h
  | t0 :: t1 :: t2 :: t3 :: t4 :: rest =>
    refine ⟨t0, t1, t2, t3, t4, rest, rfl, ?_⟩
    simp [TttyDriver.parseTokens] at h
    match h2 : from_str_isize t2 with
    | Except.error e => rw [h2] at h; simp at h
    | Except.ok n =>
      rw [h2] at h; simp at h
      match h3 : parseBounds t3 with
      | Except.error e => rw [h3] at h; simp at h
      | Except.ok b =>
        rw [h3] at h; simp at h
        subst h
        exact ⟨rfl, rfl, rfl, rfl, rfl⟩

theorem parseTokens_ld_ok :
    ∀ {ts : List (List Char)} {d : LineDiscipline},
      LineDiscipline.parseTokens ts = Except.ok d →
      ∃ t0 t1 rest, ts = t0 :: t1 :: rest ∧
        d.name = String.mk t0 ∧ from_str_usize t1 = Except.ok d.no := by
  intro ts d h
  match ts with
  | [] => simp [LineDiscipline.parseTokens] at h
  | [t0] => simp [LineDiscipline.parseTokens] at h
  | t0 :: t1 :: rest =>
    refine ⟨t0, t1, rest, rfl, ?_⟩
    simp [LineDiscipline.parseTokens] at h
    match h1 : from_str_usize t1 with
    | Except.error e => rw [h1] at h; simp at h
    | Except.ok n =>
      rw [h1] at h; simp at h
      subst h
      exact ⟨rfl, rfl⟩

theorem splitWsAux_ws_append (e : List Char) :
    ∀ (xs : List Char) (cur : List Char),
      splitWsAux cur (xs ++ ' ' :: e) = splitWsAux cur xs ++ splitWsAux [] e := by
  intro xs
  induction xs with
  | nil =>
    intro cur
    by_cases hc : cur = [] <;> simp [splitWsAux, hc]
  | cons c cs ih =>
    intro cur
    by_cases hw : c.isWhitespace
    · by_cases hc : cur = [] <;> simp [splitWsAux, hw, hc, ih]
    · simp [splitWsAux, hw, ih]

theorem splitWhitespace_ws_append (xs e : List Char) :
    splitWhitespace (xs ++ ' ' :: e) = splitWhitespace xs ++ splitWhitespace e :=
  splitWsAux_ws_append e xs []

theorem parseTokens_tty_ignores_rest (t0 t1 t2 t3 t4 : List Char)
    (rest rest' : List (List Char)) :
    TttyDriver.parseTokens (t0 :: t1 :: t2 :: t3 :: t4 :: rest) =
      TttyDriver.parseTokens (t0 :: t1 :: t2 :: t3 :: t4 :: rest') := by
  simp [TttyDriver.parseTokens]

theorem parseTokens_ld_ignores_rest (t0 t1 : List Char) (rest rest' : List (List Char)) :
    LineDiscipline.parseTokens (t0 :: t1 :: rest) =
      LineDiscipline.parseTokens (t0 :: t1 :: rest') := by
  simp [LineDiscipline.parseTokens]

theorem parseAll_ok_length {α : Type} {f : String → Except ProcError α} :
    ∀ {ls : List String} {ds : List α}, parseAll f ls = Except.ok ds → ds.length = ls.length := by
  intro ls
  induction ls with
  | nil => intro ds h; simp [parseAll] at h; simp [h.symm]
  | cons l ls ih =>
    intro ds h
    simp [parseAll] at h
    match hf : f l with
    | Except.error e => rw [hf] at h; simp at h
    | Except.ok d =>
      rw [hf] at h; simp at h
      match hp : parseAll f ls with
      | Except.error e => rw [hp] at h; simp at h
      | Except.ok ds' =>
        rw [hp] at h; simp at h
        subst h
        simp [ih hp]

theorem parseAll_ok_get {α : Type} {f : String → Except ProcError α} :
    ∀ {ls : List String} {ds : List α}, parseAll f ls = Except.ok ds →
      ∀ (i : Nat) (h1 : i < ls.length) (h2 : i < ds.length),
        f (ls.get ⟨i, h1⟩) = Except.ok (ds.get ⟨i, h2⟩) := by
  intro ls
  induction ls with
  | nil => intro ds h i h1 h2; simp at h1
  | cons l ls ih =>
    intro ds h i h1 h2
    simp [parseAll] at h
    match hf : f l with
    | Except.error e => rw [hf] at h; simp at h
    | Except.ok d =>
      rw [hf] at h; simp at h
      match hp : parseAll f ls with
      | Except.error e => rw [hp] at h; simp at h
      | Except.ok ds' =>
        rw [hp] at h; simp at h
        subst h
        match i with
        | 0 => simpa using hf
        | i + 1 =>
          simp only [List.get_cons_succ]
          exact ih hp i (Nat.lt_of_succ_lt_succ h1) (Nat.lt_of_succ_lt_succ h2)

theorem ttyGoRun :
    ∀ (pre : List String) {ds : List TttyDriver}
      (acc : List (String × TttyDriver)) (rest : List (Except String String)),
      parseAll TttyDriver.parse_line pre = Except.ok ds →
      TtyDrivers.fromBufReadGo acc (pre.map Except.ok ++ rest) =
        TtyDrivers.fromBufReadGo
          (ds.foldl (fun m d => insertAssoc m d.name d) acc) rest := by
  intro pre
  induction pre with
  | nil =>
    intro ds acc rest h
    simp [parseAll] at h
    subst h
    rfl
  | cons l pre ih =>
    intro ds acc rest h
    simp [parseAll] at h
    match hf : TttyDriver.parse_line l with
    | Except.error e => rw [hf] at h; simp at h
    | Except.ok d =>
      rw [hf] at h; simp at h
      match hp : parseAll TttyDriver.parse_line pre with
      | Except.error e => rw [hp] at h; simp at h
      | Except.ok ds' =>
        rw [hp] at h; simp at h
        subst h
        simp only [List.map_cons, List.cons_append, TtyDrivers.fromBufReadGo, hf,
          List.foldl_cons]
        exact ih (insertAssoc acc d.name d) rest hp

theorem ldGoRun :
    ∀ (pre : List String) {ds : List LineDiscipline}
      (acc : List LineDiscipline) (rest : List (Except String String)),
      parseAll LineDiscipline.parse_line pre = Except.ok ds →
      LineDisciplines.fromBufReadGo acc (pre.map Except.ok ++ rest) =
        LineDisciplines.fromBufReadGo (acc ++ ds) rest := by
  intro pre
  induction pre with
  | nil =>
    intro ds acc rest h
    simp [parseAll] at h
    subst h
    simp
  | cons l pre ih =>
    intro ds acc rest h
    simp [parseAll] at h
    match hf : LineDiscipline.parse_line l with
    | Except.error e => rw [hf] at h; simp at h
    | Except.ok d =>
      rw [hf] at h; simp at h
      match hp : parseAll LineDiscipline.parse_line pre with
      | Except.error e => rw [hp] at h; simp at h
      | Except.ok ds' =>
        rw [hp] at h; simp at h
        subst h
        simp only [List.map_cons, List.cons_append, LineDisciplines.fromBufReadGo, hf,
          List.append_eq]
        rw [ih (acc ++ [d]) rest hp]
        simp

theorem getAssoc_insert (m : List (String × TttyDriver)) (k : String) (v : TttyDriver)
    (q : String) :
    getAssoc (insertAssoc m k v) q = if k = q then some v else getAssoc m q := by
  induction m with
  | nil => by_cases h : k = q <;> simp [insertAssoc, getAssoc, h]
  | cons a rest ih =>
    obtain ⟨a1, a2⟩ := a
    by_cases ha : a1 = k
    · subst ha
      by_cases hq : a1 = q <;> simp [insertAssoc, getAssoc, hq]
    · by_cases hq : a1 = q
      · subst hq
        have hk : ¬ k = a1 := fun h => ha h.symm
        simp [insertAssoc, getAssoc, ha, hk]
      · simp [insertAssoc, getAssoc, ha, hq, ih]

theorem length_insert_not_mem (m : List (String × TttyDriver)) (k : String) (v : TttyDriver) :
    getAssoc m k = none → (insertAssoc m k v).length = m.length + 1 := by
  induction m with
  | nil => intro h; simp [insertAssoc]
  | cons a rest ih =>
    obtain ⟨a1, a2⟩ := a
    intro h
    simp [getAssoc] at h
    by_cases ha : a1 = k
    · rw [if_pos ha] at h; simp at h
    · rw [if_neg ha] at h
      simp [insertAssoc, ha, ih h]

theorem getAssoc_foldl :
    ∀ (ds : List TttyDriver) (acc : List (String × TttyDriver)) (k : String),
      getAssoc (ds.foldl (fun m d => insertAssoc m d.name d) acc) k =
        match lastWins ds k with
        | some x => some x
        | none => getAssoc acc k := by
  intro ds
  induction ds with
  | nil => intro acc k; simp [lastWins]
  | cons d ds ih =>
    intro acc k
    simp only [List.foldl_cons, lastWins]
    rw [ih]
    match hlw : lastWins ds k with
    | some x => simp
    | none =>
      simp only [getAssoc_insert]
      by_cases hk : d.name = k <;> simp [hk]

theorem length_foldl_nodup :
    ∀ (ds : List TttyDriver) (acc : List (String × TttyDriver)),
      (ds.map TttyDriver.name).Nodup →
      (∀ d ∈ ds, getAssoc acc d.name = none) →
      (ds.foldl (fun m d => insertAssoc m d.name d) acc).length = acc.length + ds.length := by
  intro ds
  induction ds with
  | nil => intro acc _ _; simp
  | cons d ds ih =>
    intro acc hnd habs
    simp only [List.map_cons, List.nodup_cons] at hnd
    obtain ⟨hnotin, hnd'⟩ := hnd
    simp only [List.foldl_cons]
    have habs' : ∀ d' ∈ ds, getAssoc (insertAssoc acc d.name d) d'.name = none := by
      intro d' hd'
      rw [getAssoc_insert]
      by_cases hname : d.name = d'.name
      · exact absurd (hname ▸ List.mem_map_of_mem TttyDriver.name hd') hnotin
      · rw [if_neg hname]
        exact habs d' (List.mem_cons_of_mem d hd')
    rw [ih (insertAssoc acc d.name d) hnd' habs']
    rw [length_insert_not_mem acc d.name d (habs d (List.mem_cons_self d ds))]
    simp only [List.length_cons]
    omega

@[simp] theorem except_map_ok {α β : Type} (f : α → β) (a : α) :
    (Except.ok a : Except ProcError α).map f = Except.ok (f a) := rfl

@[simp] theorem except_map_error {α β : Type} (f : α → β) (e : ProcError) :
    (Except.error e : Except ProcError α).map f = Except.error e := rfl

theorem string_data_append (a b : String) : (a ++ b).data = a.data ++ b.data := rfl

theorem from_str_isize_error :
    ∀ {cs : List Char} {e : ProcError}, from_str_isize cs = Except.error e →
      e = ProcError.InvalidNumber := by
  intro cs e h
  unfold from_str_isize at h
  split at h <;> (split at h <;> simp_all) <;> (try split at h) <;> simp_all

theorem from_str_usize_error :
    ∀ {cs : List Char} {e : ProcError}, from_str_usize cs = Except.error e →
      e = ProcError.InvalidNumber := by
  intro cs e h
  unfold from_str_usize at h
  split at h <;> (split at h <;> simp_all) <;> (try split at h) <;> simp_all

theorem parseBounds_error :
    ∀ {cs : List Char} {e : ProcError}, parseBounds cs = Except.error e →
      e = ProcError.InvalidNumber := by
  intro cs e h
  unfold parseBounds at h
  split at h
  · rename_i l r _
    match hl : from_str_isize l with
    | Except.error e' =>
      rw [hl] at h; simp at h
      exact h ▸ from_str_isize_error hl
    | Except.ok a =>
      rw [hl] at h; simp at h
      match hr : from_str_isize r with
      | Except.error e' =>
        rw [hr] at h; simp at h
        exact h ▸ from_str_isize_error hr
      | Except.ok b => rw [hr] at h; simp at h
  · match hs : from_str_isize cs with
    | Except.error e' =>
      rw [hs] at h; simp at h
      exact h ▸ from_str_isize_error hs
    | Except.ok a => rw [hs] at h; simp at h

theorem tty_decode_read_error (pre : List String) {ds : List TttyDriver} (e : String)
    (suf : List (Except String String))
    (hpre : parseAll TttyDriver.parse_line pre = Except.ok ds) :
    TtyDrivers.from_buf_read (pre.map Except.ok ++ Except.error e :: suf) =
      Except.error (ProcError.SourceReadError e) := by
  unfold TtyDrivers.from_buf_read
  rw [ttyGoRun pre _ _ hpre]
  rfl

theorem tty_decode_parse_error (pre : List String) {ds : List TttyDriver} (l : String)
    {err : ProcError} (suf : List (Except String String))
    (hpre : parseAll TttyDriver.parse_line pre = Except.ok ds)
    (hl : TttyDriver.parse_line l = Except.error err) :
    TtyDrivers.from_buf_read (pre.map Except.ok ++ Except.ok l :: suf) =
      Except.error err := by
  unfold TtyDrivers.from_buf_read
  rw [ttyGoRun pre _ _ hpre]
  simp [TtyDrivers.fromBufReadGo, hl]

theorem ld_decode_read_error (pre : List String) {ds : List LineDiscipline} (e : String)
    (suf : List (Except String String))
    (hpre : parseAll LineDiscipline.parse_line pre = Except.ok ds) :
    LineDisciplines.from_buf_read (pre.map Except.ok ++ Except.error e :: suf) =
      Except.error (ProcError.SourceReadError e) := by
  unfold LineDisciplines.from_buf_read
  rw [ldGoRun pre _ _ hpre]
  rfl

theorem ld_decode_parse_error (pre : List String) {ds : List LineDiscipline} (l : String)
    {err : ProcError} (suf : List (Except String String))
    (hpre : parseAll LineDiscipline.parse_line pre = Except.ok ds)
    (hl : LineDiscipline.parse_line l = Except.error err) :
    LineDisciplines.from_buf_read (pre.map Except.ok ++ Except.ok l :: suf) =
      Except.error err := by
  unfold LineDisciplines.from_buf_read
  rw [ldGoRun pre _ _ hpre]
  simp [LineDisciplines.fromBufReadGo, hl]

/-- Claim C7: decoding an empty input source (zero lines) succeeds and yields an
empty table for `TtyDrivers.from_buf_read` and an empty sequence for
`LineDisciplines.from_buf_read`; neither decoder returns an error on empty
input. -/
theorem C7_empty_input :
    TtyDrivers.from_buf_read [] = Except.ok ⟨[]⟩ ∧
    LineDisciplines.from_buf_read [] = Except.ok ⟨[]⟩ :=
  ⟨rfl, rfl⟩

/-- Claim C8: parsing the concrete tty-driver line for the `pty_slave` driver yields
name `pty_slave`, node name `/dev/pts`, major number 136, minor-number range
0 to 1048575, and driver type `pty:slave` kept verbatim (the colon in the
fifth field is not a delimiter). -/
theorem C8_pty_slave_example :
    TttyDriver.parse_line "pty_slave            /dev/pts      136 0-1048575 pty:slave" =
      Except.ok
        { name := "pty_slave", node_name := "/dev/pts", major_number := 136,
          minor_numbers := (0, 1048575), driver_type := "pty:slave" } := rfl

/-- Claim C1: for every tty-driver line that parses successfully, the fourth
whitespace-delimited field is split at the first occurrence of a `-`
character, when one is present, into two pieces whose independent
signed-integer parses are exactly the lower and upper bounds of the produced
range (no reordering or validation); when no `-` is present the whole field
parses to a single integer used as both bounds. -/
theorem C1_minor_range (line : String) (r : TttyDriver)
    (h : TttyDriver.parse_line line = Except.ok r) :
    ∃ t3, (splitWhitespace line.data)[3]? = some t3 ∧
      (∀ l u, splitOnceChar '-' t3 = some (l, u) →
        t3 = l ++ '-' :: u ∧ '-' ∉ l ∧
        from_str_isize l = Except.ok r.minor_numbers.1 ∧
        from_str_isize u = Except.ok r.minor_numbers.2) ∧
      (splitOnceChar '-' t3 = none →
        from_str_isize t3 = Except.ok r.minor_numbers.1 ∧
        r.minor_numbers.2 = r.minor_numbers.1) := by
  obtain ⟨t0, t1, t2, t3, t4, rest, hts, _, _, _, hbounds, _⟩ := parseTokens_tty_ok h
  refine ⟨t3, by rw [hts]; rfl, ?_, ?_⟩
  · intro l u hsp
    obtain ⟨hcat, hnot⟩ := splitOnceChar_eq_some hsp
    refine ⟨hcat, hnot, ?_⟩
    unfold parseBounds at hbounds
    rw [hsp] at hbounds
    simp only at hbounds
    match hl : from_str_isize l with
    | Except.error e => rw [hl] at hbounds; simp at hbounds
    | Except.ok a =>
      rw [hl] at hbounds; simp at hbounds
      match hu : from_str_isize u with
      | Except.error e => rw [hu] at hbounds; simp at hbounds
      | Except.ok b =>
        rw [hu] at hbounds; simp at hbounds
        rw [← hbounds]
        exact ⟨rfl, rfl⟩
  · intro hnone
    unfold parseBounds at hbounds
    rw [hnone] at hbounds
    simp only at hbounds
    match hs : from_str_isize t3 with
    | Except.error e => rw [hs] at hbounds; simp at hbounds
    | Except.ok a =>
      rw [hs] at hbounds; simp at hbounds
      rw [← hbounds]
      exact ⟨rfl, rfl⟩

/-- Witness for C1 at a concrete line whose fourth field is `9-3`: the parse
succeeds and the range is built exactly as parsed even though the upper bound
is below the lower bound. -/
theorem C1_minor_range_witness :
    ∃ t3, (splitWhitespace ("a b 1 9-3 t" : String).data)[3]? = some t3 ∧
      (∀ l u, splitOnceChar '-' t3 = some (l, u) →
        t3 = l ++ '-' :: u ∧ '-' ∉ l ∧
        from_str_isize l = Except.ok (9 : Int) ∧
        from_str_isize u = Except.ok (3 : Int)) ∧
      (splitOnceChar '-' t3 = none →
        from_str_isize t3 = Except.ok (9 : Int) ∧ (3 : Int) = 9) :=
  C1_minor_range "a b 1 9-3 t"
    { name := "a", node_name := "b", major_number := 1,
      minor_numbers := (9, 3), driver_type := "t" } rfl

/-- Claim C2: the first read fault or parse failure aborts the whole decode of
either table with that error — a read fault surfaces as `SourceReadError`
wrapping the fault's description, a parse failure surfaces unchanged — and
the decoder returns an error value, never a partial table. -/
theorem C2_abort_on_first_error :
    (∀ (pre : List String) (ds : List TttyDriver) (e : String)
        (suf : List (Except String String)),
        parseAll TttyDriver.parse_line pre = Except.ok ds →
        TtyDrivers.from_buf_read (pre.map Except.ok ++ Except.error e :: suf) =
          Except.error (ProcError.SourceReadError e)) ∧
    (∀ (pre : List String) (ds : List TttyDriver) (l : String) (err : ProcError)
        (suf : List (Except String String)),
        parseAll TttyDriver.parse_line pre = Except.ok ds →
        TttyDriver.parse_line l = Except.error err →
        TtyDrivers.from_buf_read (pre.map Except.ok ++ Except.ok l :: suf) =
          Except.error err) ∧
    (∀ (pre : List String) (ds : List LineDiscipline) (e : String)
        (suf : List (Except String String)),
        parseAll LineDiscipline.parse_line pre = Except.ok ds →
        LineDisciplines.from_buf_read (pre.map Except.ok ++ Except.error e :: suf) =
          Except.error (ProcError.SourceReadError e)) ∧
    (∀ (pre : List String) (ds : List LineDiscipline) (l : String) (err : ProcError)
        (suf : List (Except String String)),
        parseAll LineDiscipline.parse_line pre = Except.ok ds →
        LineDiscipline.parse_line l = Except.error err →
        LineDisciplines.from_buf_read (pre.map Except.ok ++ Except.ok l :: suf) =
          Except.error err) :=
  ⟨fun pre _ e suf hpre => tty_decode_read_error pre e suf hpre,
   fun pre _ l _ suf hpre hl => tty_decode_parse_error pre l suf hpre hl,
   fun pre _ e suf hpre => ld_decode_read_error pre e suf hpre,
   fun pre _ l _ suf hpre hl => ld_decode_parse_error pre l suf hpre hl⟩

/-- Witness for C2: a concrete read fault after one good tty line, a concrete
bad tty line after one good line, and the same two shapes for the
line-discipline decoder. -/
theorem C2_abort_on_first_error_witness :
    TtyDrivers.from_buf_read [Except.ok "a b 5 0 t", Except.error "io fault"] =
      Except.error (ProcError.SourceReadError "io fault") ∧
    TtyDrivers.from_buf_read [Except.ok "a b 5 0 t", Except.ok "short"] =
      Except.error ProcError.MalformedRecord ∧
    LineDisciplines.from_buf_read [Except.ok "n_tty 0", Except.error "io fault"] =
      Except.error (ProcError.SourceReadError "io fault") ∧
    LineDisciplines.from_buf_read [Except.ok "n_tty 0", Except.ok ""] =
      Except.error ProcError.MalformedRecord :=
  ⟨C2_abort_on_first_error.1 ["a b 5 0 t"]
      [{ name := "a", node_name := "b", major_number := 5,
         minor_numbers := (0, 0), driver_type := "t" }] "io fault" [] rfl,
   C2_abort_on_first_error.2.1 ["a b 5 0 t"]
      [{ name := "a", node_name := "b", major_number := 5,
         minor_numbers := (0, 0), driver_type := "t" }] "short"
      ProcError.MalformedRecord [] rfl rfl,
   C2_abort_on_first_error.2.2.1 ["n_tty 0"] [{ name := "n_tty", no := 0 }] "io fault" [] rfl,
   C2_abort_on_first_error.2.2.2 ["n_tty 0"] [{ name := "n_tty", no := 0 }] ""
      ProcError.MalformedRecord [] rfl rfl⟩

/-- Claim C3: decoding a sequence of well-formed tty-driver lines succeeds; the
table has exactly as many entries as lines whenever the parsed names are all
distinct, and in general the keyed lookup of any name returns the record of
the last line bearing that name (last-write-wins), with no duplicate-key
error. -/
theorem C3_last_write_wins (lines : List String) (ds : List TttyDriver)
    (h : parseAll TttyDriver.parse_line lines = Except.ok ds) :
    ∃ t, TtyDrivers.from_buf_read (lines.map Except.ok) = Except.ok t ∧
      ds.length = lines.length ∧
      ((ds.map TttyDriver.name).Nodup → t.drivers.length = lines.length) ∧
      (∀ nm, getAssoc t.drivers nm = lastWins ds nm) := by
  refine ⟨⟨ds.foldl (fun m d => insertAssoc m d.name d) []⟩, ?_, parseAll_ok_length h, ?_, ?_⟩
  · unfold TtyDrivers.from_buf_read
    have h2 := ttyGoRun lines ([]) ([]) h
    rw [List.append_nil] at h2
    rw [h2]
    rfl
  · intro hnd
    have h3 := length_foldl_nodup ds [] hnd (fun d _ => rfl)
    rw [h3]
    simp [parseAll_ok_length h]
  · intro nm
    rw [getAssoc_foldl]
    match hlw : lastWins ds nm with
    | some x => simp
    | none => simp [getAssoc]

/-- Witness for C3 at two concrete lines sharing the name `x`: the decode
succeeds and the table holds the later line's record under `x`. -/
theorem C3_last_write_wins_witness :
    ∃ t, TtyDrivers.from_buf_read (["x a 1 2 t", "x b 3 4 u"].map Except.ok) = Except.ok t ∧
      ([{ name := "x", node_name := "a", major_number := 1,
          minor_numbers := (2, 2), driver_type := "t" },
        { name := "x", node_name := "b", major_number := 3,
          minor_numbers := (4, 4), driver_type := "u" }] : List TttyDriver).length =
        (["x a 1 2 t", "x b 3 4 u"] : List String).length ∧
      ((([{ name := "x", node_name := "a", major_number := 1,
            minor_numbers := (2, 2), driver_type := "t" },
          { name := "x", node_name := "b", major_number := 3,
            minor_numbers := (4, 4), driver_type := "u" }] :
              List TttyDriver).map TttyDriver.name).Nodup →
        t.drivers.length = (["x a 1 2 t", "x b 3 4 u"] : List String).length) ∧
      (∀ nm, getAssoc t.drivers nm =
        lastWins
          [{ name := "x", node_name := "a", major_number := 1,
             minor_numbers := (2, 2), driver_type := "t" },
           { name := "x", node_name := "b", major_number := 3,
             minor_numbers := (4, 4), driver_type := "u" }] nm) :=
  C3_last_write_wins ["x a 1 2 t", "x b 3 4 u"]
    [{ name := "x", node_name := "a", major_number := 1,
       minor_numbers := (2, 2), driver_type := "t" },
     { name := "x", node_name := "b", major_number := 3,
       minor_numbers := (4, 4), driver_type := "u" }] rfl

/-- Claim C4: decoding well-formed line-discipline lines yields the sequence of
their parses in input order, with one record per line and no merging of
duplicates. -/
theorem C4_order_preserved (lines : List String) (ds : List LineDiscipline)
    (h : parseAll LineDiscipline.parse_line lines = Except.ok ds) :
    LineDisciplines.from_buf_read (lines.map Except.ok) = Except.ok ⟨ds⟩ ∧
    ds.length = lines.length ∧
    ∀ (i : Nat) (h1 : i < lines.length) (h2 : i < ds.length),
      LineDiscipline.parse_line (lines.get ⟨i, h1⟩) = Except.ok (ds.get ⟨i, h2⟩) := by
  refine ⟨?_, parseAll_ok_length h, parseAll_ok_get h⟩
  unfold LineDisciplines.from_buf_read
  have h2 := ldGoRun lines ([]) ([]) h
  rw [List.append_nil] at h2
  rw [h2]
  simp [LineDisciplines.fromBufReadGo]

/-- Witness for C4 at the spec's two-line example, including a duplicated
line to show duplicates are retained in order. -/
theorem C4_order_preserved_witness :
    LineDisciplines.from_buf_read
        (["n_tty       0", "n_null     27", "n_tty       0"].map Except.ok) =
      Except.ok ⟨[{ name := "n_tty", no := 0 }, { name := "n_null", no := 27 },
                  { name := "n_tty", no := 0 }]⟩ ∧
    ([{ name := "n_tty", no := 0 }, { name := "n_null", no := 27 },
      { name := "n_tty", no := 0 }] : List LineDiscipline).length =
      (["n_tty       0", "n_null     27", "n_tty       0"] : List String).length ∧
    ∀ (i : Nat) (h1 : i < (["n_tty       0", "n_null     27", "n_tty       0"] :
        List String).length)
      (h2 : i < ([{ name := "n_tty", no := 0 }, { name := "n_null", no := 27 },
                  { name := "n_tty", no := 0 }] : List LineDiscipline).length),
      LineDiscipline.parse_line
          ((["n_tty       0", "n_null     27", "n_tty       0"] : List String).get ⟨i, h1⟩) =
        Except.ok
          (([{ name := "n_tty", no := 0 }, { name := "n_null", no := 27 },
             { name := "n_tty", no := 0 }] : List LineDiscipline).get ⟨i, h2⟩) :=
  C4_order_preserved ["n_tty       0", "n_null     27", "n_tty       0"]
    [{ name := "n_tty", no := 0 }, { name := "n_null", no := 27 },
     { name := "n_tty", no := 0 }] rfl

/-- Whether a fallible computation succeeded. -/
def isOkE {α : Type} : Except ProcError α → Bool
  | Except.ok _ => true
  | Except.error _ => false

theorem isOkE_iff {α : Type} {x : Except ProcError α} :
    isOkE x = true ↔ ∃ a, x = Except.ok a := by
  cases x <;> simp [isOkE]

/-- Whether the numeric fields present among the first four tokens (the major
number at index 2 and the minor-number field at index 3) all parse
successfully. -/
def ttyNumericOk (ts : List (List Char)) : Bool :=
  (match ts[2]? with
   | none => true
   | some t => isOkE (from_str_isize t)) &&
  (match ts[3]? with
   | none => true
   | some t => isOkE (parseBounds t))

theorem tty_short_fails (line : String)
    (h : (splitWhitespace line.data).length < 5) :
    ∃ e, TttyDriver.parse_line line = Except.error e ∧
      (e = ProcError.MalformedRecord ∨ e = ProcError.InvalidNumber) := by
  unfold TttyDriver.parse_line
  match hts : splitWhitespace line.data with
  | [] => exact ⟨ProcError.MalformedRecord, by simp [TttyDriver.parseTokens], Or.inl rfl⟩
  | [t0] => exact ⟨ProcError.MalformedRecord, by simp [TttyDriver.parseTokens], Or.inl rfl⟩
  | [t0, t1] => exact ⟨ProcError.MalformedRecord, by simp [TttyDriver.parseTokens], Or.inl rfl⟩
  | [t0, t1, t2] =>
    match h2 : from_str_isize t2 with
    | Except.ok n =>
      exact ⟨ProcError.MalformedRecord, by simp [TttyDriver.parseTokens, h2], Or.inl rfl⟩
    | Except.error e =>
      exact ⟨e, by simp [TttyDriver.parseTokens, h2], Or.inr (from_str_isize_error h2)⟩
  | [t0, t1, t2, t3] =>
    match h2 : from_str_isize t2 with
    | Except.ok n =>
      match h3 : parseBounds t3 with
      | Except.ok b =>
        exact ⟨ProcError.MalformedRecord, by simp [TttyDriver.parseTokens, h2, h3], Or.inl rfl⟩
      | Except.error e =>
        exact ⟨e, by simp [TttyDriver.parseTokens, h2, h3], Or.inr (parseBounds_error h3)⟩
    | Except.error e =>
      exact ⟨e, by simp [TttyDriver.parseTokens, h2], Or.inr (from_str_isize_error h2)⟩
  | t0 :: t1 :: t2 :: t3 :: t4 :: rest =>
    rw [hts] at h
    simp at h
    omega

theorem tty_short_mr (line : String)
    (h : (splitWhitespace line.data).length < 5)
    (hnum : ttyNumericOk (splitWhitespace line.data) = true) :
    TttyDriver.parse_line line = Except.error ProcError.MalformedRecord := by
  unfold TttyDriver.parse_line
  match hts : splitWhitespace line.data with
  | [] => simp [TttyDriver.parseTokens]
  | [t0] => simp [TttyDriver.parseTokens]
  | [t0, t1] => simp [TttyDriver.parseTokens]
  | [t0, t1, t2] =>
    rw [hts] at hnum
    simp [ttyNumericOk] at hnum
    obtain ⟨n, hn⟩ := isOkE_iff.mp hnum
    simp [TttyDriver.parseTokens, hn]
  | [t0, t1, t2, t3] =>
    rw [hts] at hnum
    simp [ttyNumericOk] at hnum
    obtain ⟨hnum2, hnum3⟩ := hnum
    obtain ⟨n, hn⟩ := isOkE_iff.mp hnum2
    obtain ⟨b, hb⟩ := isOkE_iff.mp hnum3
    simp [TttyDriver.parseTokens, hn, hb]
  | t0 :: t1 :: t2 :: t3 :: t4 :: rest =>
    rw [hts] at h
    simp at h
    omega

theorem tty_short_invalid (line : String)
    (h : (splitWhitespace line.data).length < 5)
    (hnum : ttyNumericOk (splitWhitespace line.data) = false) :
    TttyDriver.parse_line line = Except.error ProcError.InvalidNumber := by
  unfold TttyDriver.parse_line
  match hts : splitWhitespace line.data with
  | [] => rw [hts] at hnum; simp [ttyNumericOk] at hnum
  | [t0] => rw [hts] at hnum; simp [ttyNumericOk] at hnum
  | [t0, t1] => rw [hts] at hnum; simp [ttyNumericOk] at hnum
  | [t0, t1, t2] =>
    rw [hts] at hnum
    match h2 : from_str_isize t2 with
    | Except.ok n => simp [ttyNumericOk, h2, isOkE] at hnum
    | Except.error e =>
      have he := from_str_isize_error h2
      subst he
      simp [TttyDriver.parseTokens, h2]
  | [t0, t1, t2, t3] =>
    rw [hts] at hnum
    match h2 : from_str_isize t2 with
    | Except.error e =>
      have he := from_str_isize_error h2
      subst he
      simp [TttyDriver.parseTokens, h2]
    | Except.ok n =>
      match h3 : parseBounds t3 with
      | Except.ok b => simp [ttyNumericOk, h2, h3, isOkE] at hnum
      | Except.error e =>
        have he := parseBounds_error h3
        subst he
        simp [TttyDriver.parseTokens, h2, h3]
  | t0 :: t1 :: t2 :: t3 :: t4 :: rest =>
    rw [hts] at h
    simp at h
    omega

theorem ld_short_mr (line : String)
    (h : (splitWhitespace line.data).length < 2) :
    LineDiscipline.parse_line line = Except.error ProcError.MalformedRecord := by
  unfold LineDiscipline.parse_line
  match hts : splitWhitespace line.data with
  | [] => simp [LineDiscipline.parseTokens]
  | [t0] => simp [LineDiscipline.parseTokens]
  | t0 :: t1 :: rest =>
    rw [hts] at h
    simp at h
    omega

/-- Counterexample for C5: the line `a b x 1` has only four
whitespace-delimited tokens, yet `TttyDriver.parse_line` fails on it with
`InvalidNumber` (the non-numeric third field is parsed before the missing
fifth field is noticed), not with `MalformedRecord` as the claim states. -/
theorem C5_counterexample :
    (splitWhitespace ("a b x 1" : String).data).length < 5 ∧
    TttyDriver.parse_line "a b x 1" = Except.error ProcError.InvalidNumber ∧
    ProcError.InvalidNumber ≠ ProcError.MalformedRecord :=
  ⟨by decide, rfl, by decide⟩

/-- Claim C5 (amended): every line with fewer than 5 tokens fails
`TttyDriver.parse_line` — with `MalformedRecord` exactly when the numeric
fields present among its tokens parse successfully, and with `InvalidNumber`
exactly when one of them is itself invalid (fields are consumed left to
right, so a bad numeric field is reported before a later missing field);
every line with fewer than 2 tokens fails `LineDiscipline.parse_line` with
`MalformedRecord`; a blank or whitespace-only line (zero tokens) fails both
parsers with `MalformedRecord`; and any such line aborts the whole decode
with an error (no partial table). -/
theorem C5_short_lines :
    (∀ line : String, (splitWhitespace line.data).length < 5 →
      ∃ e, TttyDriver.parse_line line = Except.error e ∧
        (e = ProcError.MalformedRecord ∨ e = ProcError.InvalidNumber)) ∧
    (∀ line : String, (splitWhitespace line.data).length < 5 →
      ttyNumericOk (splitWhitespace line.data) = true →
      TttyDriver.parse_line line = Except.error ProcError.MalformedRecord) ∧
    (∀ line : String, (splitWhitespace line.data).length < 5 →
      ttyNumericOk (splitWhitespace line.data) = false →
      TttyDriver.parse_line line = Except.error ProcError.InvalidNumber) ∧
    (∀ line : String, (splitWhitespace line.data).length < 2 →
      LineDiscipline.parse_line line = Except.error ProcError.MalformedRecord) ∧
    (∀ line : String, splitWhitespace line.data = [] →
      TttyDriver.parse_line line = Except.error ProcError.MalformedRecord ∧
      LineDiscipline.parse_line line = Except.error ProcError.MalformedRecord) ∧
    (∀ (pre : List String) (ds : List TttyDriver) (line : String)
        (suf : List (Except String String)),
      parseAll TttyDriver.parse_line pre = Except.ok ds →
      (splitWhitespace line.data).length < 5 →
      ∃ e, TtyDrivers.from_buf_read (pre.map Except.ok ++ Except.ok line :: suf) =
        Except.error e) ∧
    (∀ (pre : List String) (ds : List LineDiscipline) (line : String)
        (suf : List (Except String String)),
      parseAll LineDiscipline.parse_line pre = Except.ok ds →
      (splitWhitespace line.data).length < 2 →
      LineDisciplines.from_buf_read (pre.map Except.ok ++ Except.ok line :: suf) =
        Except.error ProcError.MalformedRecord) := by
  refine ⟨tty_short_fails, tty_short_mr, tty_short_invalid, ld_short_mr, ?_, ?_, ?_⟩
  · intro line hts
    constructor
    · unfold TttyDriver.parse_line
      rw [hts]
      rfl
    · unfold LineDiscipline.parse_line
      rw [hts]
      rfl
  · intro pre ds line suf hpre hlen
    obtain ⟨e, he, _⟩ := tty_short_fails line hlen
    exact ⟨e, tty_decode_parse_error pre line suf hpre he⟩
  · intro pre ds line suf hpre hlen
    exact ld_decode_parse_error pre line suf hpre (ld_short_mr line hlen)

/-- Witness for C5 at concrete lines: a four-token tty line with valid
numerics and a one-token discipline line fail with `MalformedRecord`, a
four-token tty line with a bad numeric field fails with `InvalidNumber`, a
whitespace-only line fails both parsers, and such lines abort a decode that
had already accepted one good line. -/
theorem C5_short_lines_witness :
    (∃ e, TttyDriver.parse_line "a b 5 6" = Except.error e ∧
      (e = ProcError.MalformedRecord ∨ e = ProcError.InvalidNumber)) ∧
    TttyDriver.parse_line "a b 5 6" = Except.error ProcError.MalformedRecord ∧
    TttyDriver.parse_line "a b x 1" = Except.error ProcError.InvalidNumber ∧
    LineDiscipline.parse_line "n_tty" = Except.error ProcError.MalformedRecord ∧
    (TttyDriver.parse_line "   " = Except.error ProcError.MalformedRecord ∧
      LineDiscipline.parse_line "   " = Except.error ProcError.MalformedRecord) ∧
    (∃ e, TtyDrivers.from_buf_read [Except.ok "a b 5 0 t", Except.ok "a b 5 6"] =
      Except.error e) ∧
    LineDisciplines.from_buf_read [Except.ok "n_tty 0", Except.ok "n_tty"] =
      Except.error ProcError.MalformedRecord :=
  ⟨C5_short_lines.1 "a b 5 6" (by decide),
   C5_short_lines.2.1 "a b 5 6" (by decide) (by decide),
   C5_short_lines.2.2.1 "a b x 1" (by decide) (by decide),
   C5_short_lines.2.2.2.1 "n_tty" (by decide),
   C5_short_lines.2.2.2.2.1 "   " (by decide),
   C5_short_lines.2.2.2.2.2.1 ["a b 5 0 t"]
     [{ name := "a", node_name := "b", major_number := 5,
        minor_numbers := (0, 0), driver_type := "t" }] "a b 5 6" [] rfl (by decide),
   C5_short_lines.2.2.2.2.2.2 ["n_tty 0"] [{ name := "n_tty", no := 0 }] "n_tty" [] rfl
     (by decide)⟩

theorem from_str_isize_nil : from_str_isize [] = Except.error ProcError.InvalidNumber := rfl

/-- Counterexample for C6: the major-number field `-5` contains the non-digit
character `-`, yet the line parses successfully (signed-integer parsing
accepts a leading sign), so a numeric field containing a non-digit character
does not always fail with `InvalidNumber`. -/
theorem C6_counterexample :
    (splitWhitespace ("a b -5 0 t" : String).data)[2]? = some ['-', '5'] ∧
    ('-').isDigit = false ∧
    TttyDriver.parse_line "a b -5 0 t" =
      Except.ok
        { name := "a", node_name := "b", major_number := -5,
          minor_numbers := (0, 0), driver_type := "t" } :=
  ⟨rfl, rfl, rfl⟩

/-- Claim C6 (amended): a numeric field that fails integer parsing under the
expected signedness — it is empty, contains a character other than digits and
an optional leading sign, or overflows the 64-bit target width — makes the
line parse fail with `InvalidNumber`: this holds for the tty-driver major
number, for the minor-number field through either side of its `-` split (or
the whole field when it has no `-`), and for the line-discipline number;
a sign followed by digits, however, parses under the field's signedness. -/
theorem C6_invalid_number :
    (∀ (line : String) (t0 t1 t2 : List Char) (rest : List (List Char)),
      splitWhitespace line.data = t0 :: t1 :: t2 :: rest →
      from_str_isize t2 = Except.error ProcError.InvalidNumber →
      TttyDriver.parse_line line = Except.error ProcError.InvalidNumber) ∧
    (∀ (line : String) (t0 t1 t2 t3 : List Char) (rest : List (List Char)),
      splitWhitespace line.data = t0 :: t1 :: t2 :: t3 :: rest →
      (∃ n, from_str_isize t2 = Except.ok n) →
      parseBounds t3 = Except.error ProcError.InvalidNumber →
      TttyDriver.parse_line line = Except.error ProcError.InvalidNumber) ∧
    (∀ (line : String) (t0 t1 : List Char) (rest : List (List Char)),
      splitWhitespace line.data = t0 :: t1 :: rest →
      from_str_usize t1 = Except.error ProcError.InvalidNumber →
      LineDiscipline.parse_line line = Except.error ProcError.InvalidNumber) ∧
    (∀ (bounds l r : List Char),
      splitOnceChar '-' bounds = some (l, r) →
      (from_str_isize l = Except.error ProcError.InvalidNumber ∨
        ((∃ n, from_str_isize l = Except.ok n) ∧
          from_str_isize r = Except.error ProcError.InvalidNumber)) →
      parseBounds bounds = Except.error ProcError.InvalidNumber) ∧
    (∀ bounds : List Char,
      splitOnceChar '-' bounds = none →
      from_str_isize bounds = Except.error ProcError.InvalidNumber →
      parseBounds bounds = Except.error ProcError.InvalidNumber) := by
  refine ⟨?_, ?_, ?_, ?_, ?_⟩
  · intro line t0 t1 t2 rest hts hnum
    unfold TttyDriver.parse_line
    rw [hts]
    simp [TttyDriver.parseTokens, hnum]
  · intro line t0 t1 t2 t3 rest hts hmaj hb
    obtain ⟨n, hn⟩ := hmaj
    unfold TttyDriver.parse_line
    rw [hts]
    simp [TttyDriver.parseTokens, hn, hb]
  · intro line t0 t1 rest hts hnum
    unfold LineDiscipline.parse_line
    rw [hts]
    simp [LineDiscipline.parseTokens, hnum]
  · intro bounds l r hsp hcase
    unfold parseBounds
    rw [hsp]
    rcases hcase with hl | ⟨⟨n, hn⟩, hr⟩
    · simp [hl]
    · simp [hn, hr]
  · intro bounds hsp hnum
    unfold parseBounds
    rw [hsp]
    simp [hnum]

/-- Witness for C6 at concrete fields: an overflowing major number, a
non-numeric right-hand side of a minor range, a negative line-discipline
number (wrong signedness for an unsigned field), and bad sides of a `-`
split, each failing with `InvalidNumber`. -/
theorem C6_invalid_number_witness :
    TttyDriver.parse_line "a b 9223372036854775808 0 t" =
      Except.error ProcError.InvalidNumber ∧
    TttyDriver.parse_line "a b 5 0-x t" = Except.error ProcError.InvalidNumber ∧
    LineDiscipline.parse_line "n_tty -1" = Except.error ProcError.InvalidNumber ∧
    parseBounds ['x', '-', '2'] = Except.error ProcError.InvalidNumber ∧
    parseBounds ['2', 'x'] = Except.error ProcError.InvalidNumber :=
  ⟨C6_invalid_number.1 "a b 9223372036854775808 0 t" ['a'] ['b']
      ['9', '2', '2', '3', '3', '7', '2', '0', '3', '6', '8', '5', '4', '7', '7', '5', '8', '0', '8']
      [['0'], ['t']] rfl rfl,
   C6_invalid_number.2.1 "a b 5 0-x t" ['a'] ['b'] ['5'] ['0', '-', 'x'] [['t']] rfl
      ⟨5, rfl⟩ rfl,
   C6_invalid_number.2.2.1 "n_tty -1" ['n', '_', 't', 't', 'y'] ['-', '1'] [] rfl rfl,
   C6_invalid_number.2.2.2.1 ['x', '-', '2'] ['x'] ['2'] rfl (Or.inl rfl),
   C6_invalid_number.2.2.2.2 ['2', 'x'] rfl rfl⟩

/-- Claim C9: appending a space and any further text (hence any further
whitespace-delimited tokens) to a line that parses successfully leaves the
parse result of either line parser unchanged and raises no error. -/
theorem C9_trailing_tokens :
    (∀ (line extra : String) (r : TttyDriver),
      TttyDriver.parse_line line = Except.ok r →
      TttyDriver.parse_line (line ++ " " ++ extra) = Except.ok r) ∧
    (∀ (line extra : String) (d : LineDiscipline),
      LineDiscipline.parse_line line = Except.ok d →
      LineDiscipline.parse_line (line ++ " " ++ extra) = Except.ok d) := by
  constructor
  · intro line extra r h
    have hd : (line ++ " " ++ extra).data = line.data ++ ' ' :: extra.data := by
      rw [string_data_append, string_data_append]
      simp
    obtain ⟨t0, t1, t2, t3, t4, rest, hts, -, -, -, -, -⟩ := parseTokens_tty_ok h
    unfold TttyDriver.parse_line at h ⊢
    rw [hd, splitWhitespace_ws_append, hts]
    rw [hts] at h
    simp only [List.cons_append]
    rw [parseTokens_tty_ignores_rest t0 t1 t2 t3 t4 (rest ++ splitWhitespace extra.data) rest]
    exact h
  · intro line extra d h
    have hd : (line ++ " " ++ extra).data = line.data ++ ' ' :: extra.data := by
      rw [string_data_append, string_data_append]
      simp
    obtain ⟨t0, t1, rest, hts, -, -⟩ := parseTokens_ld_ok h
    unfold LineDiscipline.parse_line at h ⊢
    rw [hd, splitWhitespace_ws_append, hts]
    rw [hts] at h
    simp only [List.cons_append]
    rw [parseTokens_ld_ignores_rest t0 t1 (rest ++ splitWhitespace extra.data) rest]
    exact h

/-- Witness for C9: two extra tokens appended to a five-token tty line and an
extra token appended to a discipline line leave the results unchanged. -/
theorem C9_trailing_tokens_witness :
    TttyDriver.parse_line ("a b 1 2 t" ++ " " ++ "x y") =
      Except.ok
        { name := "a", node_name := "b", major_number := 1,
          minor_numbers := (2, 2), driver_type := "t" } ∧
    LineDiscipline.parse_line ("n_tty 0" ++ " " ++ "junk") =
      Except.ok { name := "n_tty", no := 0 } :=
  ⟨C9_trailing_tokens.1 "a b 1 2 t" "x y"
      { name := "a", node_name := "b", major_number := 1,
        minor_numbers := (2, 2), driver_type := "t" } rfl,
   C9_trailing_tokens.2 "n_tty 0" "junk" { name := "n_tty", no := 0 } rfl⟩

theorem getElem3_shape {l : List (List Char)} {x : List Char} (h : l[3]? = some x) :
    ∃ a b c rest, l = a :: b :: c :: x :: rest := by
  match l with
  | [] => simp at h
  | [a] => simp at h
  | [a, b] => simp at h
  | [a, b, c] => simp at h
  | a :: b :: c :: d :: rest =>
    simp at h
    subst h
    exact ⟨a, b, c, rest, rfl⟩

/-- Claim C10: a tty-driver line whose fourth token starts with `-` (in particular
a negative integer literal such as `-5`) always fails to parse — the field is
split at its first `-`, leaving an empty left side whose signed-integer parse
fails — even though the very same sign-digits text is accepted by the
signed-integer parser used for the major-number field. -/
theorem C10_negative_minor_field :
    (∀ (line : String) (ds : List Char),
      (splitWhitespace line.data)[3]? = some ('-' :: ds) →
      ∃ e, TttyDriver.parse_line line = Except.error e) ∧
    (∀ ds : List Char, splitOnceChar '-' ('-' :: ds) = some ([], ds)) ∧
    from_str_isize [] = Except.error ProcError.InvalidNumber ∧
    (∀ (ds : List Char) (n : Nat), digitsToNat ds = some n → n ≤ 2 ^ 63 →
      from_str_isize ('-' :: ds) = Except.ok (-(n : Int))) := by
  refine ⟨?_, ?_, rfl, ?_⟩
  · intro line ds h
    obtain ⟨a, b, c, rest, hts⟩ := getElem3_shape h
    unfold TttyDriver.parse_line
    rw [hts]
    match h2 : from_str_isize c with
    | Except.error e => exact ⟨e, by simp [TttyDriver.parseTokens, h2]⟩
    | Except.ok n =>
      refine ⟨ProcError.InvalidNumber, ?_⟩
      have hsp : splitOnceChar '-' ('-' :: ds) = some ([], ds) := by simp [splitOnceChar]
      have hb : parseBounds ('-' :: ds) = Except.error ProcError.InvalidNumber := by
        simp [parseBounds, hsp, from_str_isize_nil]
      simp [TttyDriver.parseTokens, h2, hb]
  · intro ds
    simp [splitOnceChar]
  · intro ds n h1 h2
    have hcase : from_str_isize ('-' :: ds) =
        match digitsToNat ds with
        | some m =>
          if m ≤ 2 ^ 63 then Except.ok (-(m : Int)) else Except.error ProcError.InvalidNumber
        | none => Except.error ProcError.InvalidNumber := rfl
    rw [hcase, h1]
    simp only []
    rw [if_pos h2]

/-- Witness for C10 at the line whose fourth field is `-5`: the parse fails,
while the signed-integer parser itself accepts `-5`. -/
theorem C10_negative_minor_field_witness :
    (∃ e, TttyDriver.parse_line "a b 5 -5 t" = Except.error e) ∧
    splitOnceChar '-' ('-' :: ['5']) = some ([], ['5']) ∧
    from_str_isize ('-' :: ['5']) = Except.ok (-(5 : Nat) : Int) :=
  ⟨C10_negative_minor_field.1 "a b 5 -5 t" ['5'] rfl,
   C10_negative_minor_field.2.1 ['5'],
   C10_negative_minor_field.2.2.2 ['5'] 5 rfl (by decide)⟩

end Procfs
